import Mathlib

/-!
Verification of the audio feature-extraction and beat-detection pipeline of
the `AudioProcessor` class (src/audio.js).  The per-frame analysis path works
on byte frequency magnitudes (a `Uint8Array`, each entry 0-255), modelled
here as a `List ℕ`; the arithmetic of the analysis functions is modelled
exactly over the rational numbers, and the real-valued note mapping
(`getMusicalNote`, which calls a base-2 logarithm) over the reals.
-/

namespace LiveMusicArtwork

/-- JS falsy-coalescing `x || d` on numbers as the snapshot assembly in
`analyzeAudio` (src/audio.js 258-270) uses it: `0` is the only falsy
rational. -/
def jsOr (x d : ℚ) : ℚ := if x = 0 then d else x

theorem jsOr_zero (x : ℚ) : jsOr x 0 = x := by
  unfold jsOr
  split
  · exact Eq.symm (by assumption)
  · rfl

/-- The part of the processor's mutable state that the per-frame analysis
reads and writes (src/audio.js 17-24). -/
structure ProcState where
  sensitivity : ℚ
  lastBeatTime : ℤ
  deriving DecidableEq

/-- `calculateVolume` (src/audio.js 276-283): mean of all byte frequency
magnitudes, normalised to 0-100, scaled by `sensitivity / 5` and capped by
`Math.min(100, _)`. -/
def calculateVolume (dataArray : List ℕ) (sensitivity : ℚ) : ℚ :=
  min 100 ((((dataArray.sum : ℚ) / dataArray.length) / 255) * 100 * (sensitivity / 5))

/-- The body of the scan loop of `findDominantFrequency` (src/audio.js
294-297): a bin takes over `(maxIndex, maxValue)` only when its magnitude is
strictly greater than the running maximum. -/
def scanStep (dataArray : List ℕ) (acc : ℕ × ℕ) (i : ℕ) : ℕ × ℕ :=
  if acc.2 < dataArray.getD i 0 then (i, dataArray.getD i 0) else acc

/-- The scan loop of `findDominantFrequency` (src/audio.js 293-298):
`(maxIndex, maxValue)` start at `(0, 0)` and the loop visits
`i ∈ [lo, hi)`. -/
def maxScan (dataArray : List ℕ) (lo hi : ℕ) : ℕ × ℕ :=
  (List.range' lo (hi - lo)).foldl (scanStep dataArray) (0, 0)

/-- First bin of the 80Hz-4000Hz search window (src/audio.js 290). -/
def dominantStartBin (len : ℕ) (sampleRate : ℚ) : ℕ :=
  (⌊(80 * len : ℚ) / (sampleRate / 2)⌋).toNat

/-- One-past-last bin of the 80Hz-4000Hz search window (src/audio.js 291). -/
def dominantEndBin (len : ℕ) (sampleRate : ℚ) : ℕ :=
  (⌊(4000 * len : ℚ) / (sampleRate / 2)⌋).toNat

/-- `findDominantFrequency` (src/audio.js 285-302).  `bufferLength` equals
`dataArray.length` in the source (both come from the analyser's
`frequencyBinCount`, src/audio.js 140-141). -/
def findDominantFrequency (dataArray : List ℕ) (sampleRate : ℚ) : ℚ :=
  let len := dataArray.length
  let m := maxScan dataArray (dominantStartBin len sampleRate)
    (min (dominantEndBin len sampleRate) len)
  (m.1 * sampleRate) / (2 * len)

/-- The indices the band loop of `analyzeFrequencyBins` visits
(src/audio.js 317): `i` from `startBin` while `i ≤ endBin` and
`i < dataArray.length`. -/
def bandIdxs (dataArray : List ℕ) (startBin endBin : ℕ) : List ℕ :=
  List.range' startBin (min (endBin + 1) dataArray.length - startBin)

/-- One band of `analyzeFrequencyBins` (src/audio.js 310-322): average byte
magnitude over bins `startBin..endBin` (inclusive, truncated at the end of
the array), normalised to 0-1, and `0` when no bin falls in the range. -/
def bandAverage (dataArray : List ℕ) (startBin endBin : ℕ) : ℚ :=
  if 0 < (bandIdxs dataArray startBin endBin).length then
    (((bandIdxs dataArray startBin endBin).map
        (fun i => (dataArray.getD i 0 : ℚ))).sum
      / (bandIdxs dataArray startBin endBin).length) / 255
  else 0

/-- The four named ranges of `this.frequencyBins` (src/audio.js 39-44, 308). -/
structure FrequencyBins where
  bass : ℚ
  mid : ℚ
  treble : ℚ
  high : ℚ
  deriving DecidableEq

/-- `binWidth = nyquist / bufferLength` (src/audio.js 305-306). -/
def binWidth (len : ℕ) (sampleRate : ℚ) : ℚ := (sampleRate / 2) / len

/-- The body of the range loop of `analyzeFrequencyBins` (src/audio.js
310-322) for one named range `[lo, hi]` in Hz. -/
def bandFor (dataArray : List ℕ) (sampleRate : ℚ) (lo hi : ℚ) : ℚ :=
  bandAverage dataArray (⌊lo / binWidth dataArray.length sampleRate⌋).toNat
    (⌊hi / binWidth dataArray.length sampleRate⌋).toNat

/-- `analyzeFrequencyBins` (src/audio.js 304-324) over the range table
`frequencyRanges` (src/audio.js 39-44). -/
def analyzeFrequencyBins (dataArray : List ℕ) (sampleRate : ℚ) : FrequencyBins :=
  ⟨bandFor dataArray sampleRate 20 200, bandFor dataArray sampleRate 200 2000,
    bandFor dataArray sampleRate 2000 8000, bandFor dataArray sampleRate 8000 20000⟩

/-- The bass-energy threshold of `detectBeat` (src/audio.js 329):
`0.3 * (sensitivity / 5)`. -/
def beatThreshold (sensitivity : ℚ) : ℚ := 3 / 10 * (sensitivity / 5)

/-- `detectBeat` (src/audio.js 326-338): the frame at wall-clock time `now`
with instantaneous bass energy `bass` yields `(beatDetected, lastBeatTime)`. -/
def detectBeat (lastBeatTime : ℤ) (sensitivity : ℚ) (now : ℤ) (bass : ℚ) : Bool × ℤ :=
  if beatThreshold sensitivity < bass ∧ 300 < now - lastBeatTime then (true, now)
  else (false, lastBeatTime)

/-- `setSensitivity` (src/audio.js 340-342). -/
def setSensitivity (s : ProcState) (value : ℚ) : ProcState :=
  { s with sensitivity := max 1 (min 10 value) }

/-- The numeric fields of the `audioData` object assembled once per frame
(src/audio.js 258-270); `dominantNote` and the two raw arrays are passed
through unchanged and are treated separately. -/
structure AudioSnapshot where
  volume : ℚ
  dominantFrequency : ℚ
  bassEnergy : ℚ
  midEnergy : ℚ
  trebleEnergy : ℚ
  highEnergy : ℚ
  beatDetected : Bool
  sensitivity : ℚ
  deriving DecidableEq

/-- `analyzeAudio` (src/audio.js 228-274): one analysis frame over the byte
frequency data `dataArray` at wall-clock time `now`, returning the updated
processor state and the snapshot published to the callbacks. -/
def analyzeAudio (s : ProcState) (dataArray : List ℕ) (sampleRate : ℚ) (now : ℤ) :
    ProcState × AudioSnapshot :=
  let vol := calculateVolume dataArray s.sensitivity
  let domFreq := findDominantFrequency dataArray sampleRate
  let bins := analyzeFrequencyBins dataArray sampleRate
  let beat := detectBeat s.lastBeatTime s.sensitivity now (jsOr bins.bass 0)
  ({ s with lastBeatTime := beat.2 },
    { volume := jsOr vol 0
      dominantFrequency := jsOr domFreq 0
      bassEnergy := jsOr bins.bass 0 * 100
      midEnergy := jsOr bins.mid 0 * 100
      trebleEnergy := jsOr bins.treble 0 * 100
      highEnergy := jsOr bins.high 0 * 100
      beatDetected := beat.1
      sensitivity := jsOr s.sensitivity 5 })

/-- C3: on every analysis frame over a nonempty byte spectrum, the published
volume equals `min 100 ((mean / 255) * 100 * (sensitivity / 5))`, it never
exceeds 100, and a constant all-zero (silent) spectrum publishes volume 0. -/
theorem C3_volume_formula (s : ProcState) (dataArray : List ℕ) (sampleRate : ℚ)
    (now : ℤ) (hne : dataArray ≠ []) :
    (analyzeAudio s dataArray sampleRate now).2.volume
        = min 100 ((((dataArray.sum : ℚ) / dataArray.length) / 255) * 100
            * (s.sensitivity / 5))
      ∧ (analyzeAudio s dataArray sampleRate now).2.volume ≤ 100
      ∧ ((∀ x ∈ dataArray, x = 0) →
          (analyzeAudio s dataArray sampleRate now).2.volume = 0) := by
  have hv : (analyzeAudio s dataArray sampleRate now).2.volume
      = calculateVolume dataArray s.sensitivity := by
    simp only [analyzeAudio, jsOr_zero]
  refine ⟨by rw [hv]; rfl, ?_, ?_⟩
  · rw [hv]
    exact min_le_left _ _
  · intro hz
    have hs : dataArray.sum = 0 := List.sum_eq_zero hz
    rw [hv]
    unfold calculateVolume
    rw [hs]
    norm_num

theorem C3_volume_formula_witness :
    ([200, 0, 100, 0] : List ℕ) ≠ []
      ∧ ((analyzeAudio ⟨5, 0⟩ [200, 0, 100, 0] 44100 0).2.volume
            = min 100 (((([200, 0, 100, 0] : List ℕ).sum : ℚ)
                / (([200, 0, 100, 0] : List ℕ).length) / 255) * 100 * ((5 : ℚ) / 5))
          ∧ (analyzeAudio ⟨5, 0⟩ [200, 0, 100, 0] 44100 0).2.volume ≤ 100
          ∧ ((∀ x ∈ ([200, 0, 100, 0] : List ℕ), x = 0) →
              (analyzeAudio ⟨5, 0⟩ [200, 0, 100, 0] 44100 0).2.volume = 0)) :=
  ⟨by decide, C3_volume_formula ⟨5, 0⟩ [200, 0, 100, 0] 44100 0 (by decide)⟩

/-- C7: `setSensitivity` stores the clamp `max 1 (min 10 v)` of its argument
(values below 1 go to 1, above 10 to 10, in-range values are kept), and every
snapshot emitted after the call carries exactly the stored clamped value in
its `sensitivity` field; a frame leaves the stored sensitivity unchanged, so
this holds for every later frame until the next `setSensitivity`. -/
theorem C7_sensitivity_roundtrip (s : ProcState) (v : ℚ) (dataArray : List ℕ)
    (sampleRate : ℚ) (now : ℤ) :
    (setSensitivity s v).sensitivity = max 1 (min 10 v)
      ∧ (v < 1 → (setSensitivity s v).sensitivity = 1)
      ∧ (10 < v → (setSensitivity s v).sensitivity = 10)
      ∧ (1 ≤ v → v ≤ 10 → (setSensitivity s v).sensitivity = v)
      ∧ (analyzeAudio (setSensitivity s v) dataArray sampleRate now).2.sensitivity
          = (setSensitivity s v).sensitivity
      ∧ (analyzeAudio (setSensitivity s v) dataArray sampleRate now).1.sensitivity
          = (setSensitivity s v).sensitivity := by
  have hone : (1 : ℚ) ≤ max 1 (min 10 v) := le_max_left _ _
  have hne : max 1 (min 10 v) ≠ 0 := by
    intro h
    rw [h] at hone
    norm_num at hone
  refine ⟨rfl, ?_, ?_, ?_, ?_, rfl⟩
  · intro h
    have h1 : min 10 v = v := min_eq_right (by linarith)
    rw [setSensitivity, h1]
    exact max_eq_left (le_of_lt h)
  · intro h
    have h1 : min 10 v = 10 := min_eq_left (le_of_lt h)
    rw [setSensitivity, h1]
    exact max_eq_right (by norm_num)
  · intro h1 h2
    have h3 : min 10 v = v := min_eq_right h2
    rw [setSensitivity, h3]
    exact max_eq_right h1
  · show jsOr (setSensitivity s v).sensitivity 5 = (setSensitivity s v).sensitivity
    unfold jsOr
    rw [if_neg]
    exact hne

/-- C1 counterexample: with sensitivity 5 the threshold is `3/10`; a frame
with bass energy 1 coming exactly 300ms after the last beat satisfies the
claim's firing condition (energy above threshold and at least
`minInterBeatIntervalMs = 300` elapsed), yet `detectBeat` does not fire,
because the code requires strictly more than 300ms to have elapsed
(src/audio.js 332). -/
theorem C1_beat_debounce_counterexample :
    beatThreshold 5 < 1 ∧ (300 : ℤ) - 0 ≥ 300 ∧ detectBeat 0 5 300 1 = (false, 0) := by
  refine ⟨by norm_num [beatThreshold], by norm_num, ?_⟩
  rw [detectBeat, if_neg]
  intro h
  exact absurd h.2 (by norm_num)

/-- C1 (amended): beat detection is edge-triggered with debounce — a frame
fires exactly when the instantaneous bass energy exceeds
`threshold = 0.3 * (sensitivity / 5)` AND strictly more than 300ms has
elapsed since `lastBeatTime`, in which case `lastBeatTime` is updated to the
frame time; otherwise `beatDetected` is false.  For two above-threshold
spikes after a firing frame at `t1`: a spike at most 300ms later does not
fire, one strictly more than 300ms later does, so any two firing frames are
separated by more than (hence at least) the inter-beat interval. -/
theorem C1_beat_debounce (last t1 t2 : ℤ) (sens b1 b2 : ℚ)
    (hb1 : beatThreshold sens < b1) (hb2 : beatThreshold sens < b2)
    (ht1 : 300 < t1 - last) :
    detectBeat last sens t1 b1 = (true, t1)
      ∧ (t2 - t1 ≤ 300 → detectBeat t1 sens t2 b2 = (false, t1))
      ∧ (300 < t2 - t1 → detectBeat t1 sens t2 b2 = (true, t2))
      ∧ (∀ l n : ℤ, ∀ b : ℚ,
          (detectBeat l sens n b).1 = true ↔ beatThreshold sens < b ∧ 300 < n - l) := by
  refine ⟨by rw [detectBeat, if_pos ⟨hb1, ht1⟩], ?_, ?_, ?_⟩
  · intro h
    rw [detectBeat, if_neg]
    intro hc
    exact absurd hc.2 (not_lt.mpr h)
  · intro h
    rw [detectBeat, if_pos ⟨hb2, h⟩]
  · intro l n b
    rw [detectBeat]
    by_cases hc : beatThreshold sens < b ∧ 300 < n - l
    · rw [if_pos hc]
      simpa using hc
    · rw [if_neg hc]
      simpa using hc

theorem C1_beat_debounce_witness :
    (beatThreshold 5 < 1 ∧ beatThreshold 5 < 1 ∧ (300 : ℤ) < 301 - 0)
      ∧ (detectBeat 0 5 301 1 = (true, 301)
        ∧ ((700 : ℤ) - 301 ≤ 300 → detectBeat 301 5 700 1 = (false, 301))
        ∧ ((300 : ℤ) < 700 - 301 → detectBeat 301 5 700 1 = (true, 700))
        ∧ (∀ l n : ℤ, ∀ b : ℚ,
            (detectBeat l 5 n b).1 = true ↔ beatThreshold 5 < b ∧ 300 < n - l)) :=
  ⟨⟨by norm_num [beatThreshold], by norm_num [beatThreshold], by norm_num⟩,
    C1_beat_debounce 0 301 700 5 1 1 (by norm_num [beatThreshold])
      (by norm_num [beatThreshold]) (by norm_num)⟩

/-- The recovery bookkeeping of the processor (src/audio.js 31-33): the
consecutive-failure counter, the active flag and the pending backoff timer
(recorded as the delay in ms it was set with; `none` when no timer is
pending). -/
structure RecoveryState where
  trackFailures : ℕ
  isActive : Bool
  retryDelay : Option ℕ
  deriving DecidableEq

/-- `handleTrackFailure` (src/audio.js 401-435): counts the failure, clears
the active flag and schedules a retry timer with exponential backoff
`min (1000 * 2 ^ (n - 1)) 10000` ms, `n` being the new failure count
(src/audio.js 405, 413, 416, 419). -/
def handleTrackFailure (s : RecoveryState) : RecoveryState :=
  { trackFailures := s.trackFailures + 1
    isActive := false
    retryDelay := some (min (1000 * 2 ^ s.trackFailures) 10000) }

/-- The retry timer firing (the callback of src/audio.js 419-434): with at
most 3 counted failures it attempts `restartAudio` (src/audio.js 455-529),
which on success reactivates the processor and resets the failure counter
(src/audio.js 522-523) and on failure calls `handleTrackFailure` again
(src/audio.js 426); past 3 failures it makes no attempt and schedules no new
timer (src/audio.js 428-433).  Returns the new state and whether a
reacquisition attempt was made. -/
def fireRetryTimer (s : RecoveryState) (restartSucceeds : Bool) :
    RecoveryState × Bool :=
  if s.trackFailures ≤ 3 then
    if restartSucceeds then (⟨0, true, none⟩, true)
    else (handleTrackFailure { s with retryDelay := none }, true)
  else ({ s with retryDelay := none }, false)

/-- The state after the initial track failure and `n` further failed
reacquisition attempts, starting from the healthy active state. -/
def failedRecoveryTrace : ℕ → RecoveryState
  | 0 => handleTrackFailure ⟨0, true, none⟩
  | n + 1 => (fireRetryTimer (failedRecoveryTrace n) false).1

/-- C2: the `n`-th failure schedules a backoff of `min (1000 * 2^(n-1)) 10000`
ms before the `n`-th reacquisition attempt (concretely 1000, 2000, 4000 ms
for the three attempted recoveries); a successful reacquisition from at most
3 failures returns the processor to active with the failure counter reset to
zero; and after three consecutive failed attempts the last scheduled timer
fires without making any attempt, leaving a terminal inactive state with no
pending timer — no further automatic attempts. -/
theorem C2_recovery_backoff (s : RecoveryState) (hs : s.trackFailures ≤ 3) :
    (∀ t : RecoveryState, (handleTrackFailure t).retryDelay
        = some (min (1000 * 2 ^ (t.trackFailures + 1 - 1)) 10000))
      ∧ fireRetryTimer s true = (⟨0, true, none⟩, true)
      ∧ (failedRecoveryTrace 0).retryDelay = some 1000
      ∧ (failedRecoveryTrace 1).retryDelay = some 2000
      ∧ (failedRecoveryTrace 2).retryDelay = some 4000
      ∧ (∀ n, n ≤ 2 → (fireRetryTimer (failedRecoveryTrace n) false).2 = true)
      ∧ fireRetryTimer (failedRecoveryTrace 3) false = (⟨4, false, none⟩, false) := by
  refine ⟨?_, ?_, by decide, by decide, by decide, ?_, by decide⟩
  · intro t
    simp [handleTrackFailure]
  · simp [fireRetryTimer, hs]
  · intro n hn
    interval_cases n <;> decide

theorem C2_recovery_backoff_witness :
    (⟨2, false, some 2000⟩ : RecoveryState).trackFailures ≤ 3
      ∧ ((∀ t : RecoveryState, (handleTrackFailure t).retryDelay
            = some (min (1000 * 2 ^ (t.trackFailures + 1 - 1)) 10000))
        ∧ fireRetryTimer ⟨2, false, some 2000⟩ true = (⟨0, true, none⟩, true)
        ∧ (failedRecoveryTrace 0).retryDelay = some 1000
        ∧ (failedRecoveryTrace 1).retryDelay = some 2000
        ∧ (failedRecoveryTrace 2).retryDelay = some 4000
        ∧ (∀ n, n ≤ 2 → (fireRetryTimer (failedRecoveryTrace n) false).2 = true)
        ∧ fireRetryTimer (failedRecoveryTrace 3) false = (⟨4, false, none⟩, false)) :=
  ⟨by decide, C2_recovery_backoff ⟨2, false, some 2000⟩ (by decide)⟩

theorem getD_le_of_forall_le (l : List ℕ) (bound : ℕ) (h : ∀ x ∈ l, x ≤ bound)
    (i : ℕ) : l.getD i 0 ≤ bound := by
  rcases lt_or_ge i l.length with hi | hi
  · rw [List.getD_eq_getElem l 0 hi]
    exact h _ (List.getElem_mem hi)
  · rw [List.getD_eq_default l 0 hi]
    exact Nat.zero_le bound

theorem bandAverage_nonneg (dataArray : List ℕ) (lo hi : ℕ) :
    0 ≤ bandAverage dataArray lo hi := by
  unfold bandAverage
  split
  · apply div_nonneg _ (by norm_num)
    apply div_nonneg _ (Nat.cast_nonneg _)
    apply List.sum_nonneg
    intro x hx
    obtain ⟨i, _, rfl⟩ := List.mem_map.mp hx
    exact Nat.cast_nonneg _
  · exact le_refl 0

theorem bandAverage_le_one (dataArray : List ℕ)
    (h255 : ∀ x ∈ dataArray, x ≤ 255) (lo hi : ℕ) :
    bandAverage dataArray lo hi ≤ 1 := by
  unfold bandAverage
  split
  · rename_i hlen
    set idxs := bandIdxs dataArray lo hi with hidxs
    have hsum : ((idxs.map (fun i => (dataArray.getD i 0 : ℚ))).sum)
        ≤ (idxs.length : ℚ) * 255 := by
      have := List.sum_le_card_nsmul (idxs.map (fun i => (dataArray.getD i 0 : ℚ))) 255 ?_
      · simpa [nsmul_eq_mul] using this
      · intro x hx
        obtain ⟨i, _, rfl⟩ := List.mem_map.mp hx
        exact_mod_cast getD_le_of_forall_le dataArray 255 h255 i
    have hlenq : (0 : ℚ) < idxs.length := by
      simpa using Nat.cast_pos.mpr hlen
    rw [div_le_one (by norm_num : (0:ℚ) < 255)]
    rw [div_le_iff hlenq]
    linarith
  · norm_num

theorem bandFor_nonneg (dataArray : List ℕ) (sampleRate lo hi : ℚ) :
    0 ≤ bandFor dataArray sampleRate lo hi :=
  bandAverage_nonneg dataArray _ _

theorem bandFor_le_one (dataArray : List ℕ) (h255 : ∀ x ∈ dataArray, x ≤ 255)
    (sampleRate lo hi : ℚ) : bandFor dataArray sampleRate lo hi ≤ 1 :=
  bandAverage_le_one dataArray h255 _ _

theorem energy_nonneg (dataArray : List ℕ) (sampleRate lo hi : ℚ) :
    0 ≤ jsOr (bandFor dataArray sampleRate lo hi) 0 * 100 := by
  rw [jsOr_zero]
  exact mul_nonneg (bandFor_nonneg dataArray sampleRate lo hi) (by norm_num)

theorem energy_le_100 (dataArray : List ℕ) (h255 : ∀ x ∈ dataArray, x ≤ 255)
    (sampleRate lo hi : ℚ) :
    jsOr (bandFor dataArray sampleRate lo hi) 0 * 100 ≤ 100 := by
  rw [jsOr_zero]
  have := bandFor_le_one dataArray h255 sampleRate lo hi
  linarith

/-- C8: for every byte-magnitude input (entries at most 255) and every
sensitivity in `[1, 10]`, each percentage field of the published snapshot —
`volume`, `bassEnergy`, `midEnergy`, `trebleEnergy`, `highEnergy` — is at
least 0 and at most 100. -/
theorem C8_percentages_in_range (s : ProcState) (dataArray : List ℕ)
    (sampleRate : ℚ) (now : ℤ) (h255 : ∀ x ∈ dataArray, x ≤ 255)
    (hs1 : 1 ≤ s.sensitivity) (hs10 : s.sensitivity ≤ 10) :
    (0 ≤ (analyzeAudio s dataArray sampleRate now).2.volume
        ∧ (analyzeAudio s dataArray sampleRate now).2.volume ≤ 100)
      ∧ (0 ≤ (analyzeAudio s dataArray sampleRate now).2.bassEnergy
        ∧ (analyzeAudio s dataArray sampleRate now).2.bassEnergy ≤ 100)
      ∧ (0 ≤ (analyzeAudio s dataArray sampleRate now).2.midEnergy
        ∧ (analyzeAudio s dataArray sampleRate now).2.midEnergy ≤ 100)
      ∧ (0 ≤ (analyzeAudio s dataArray sampleRate now).2.trebleEnergy
        ∧ (analyzeAudio s dataArray sampleRate now).2.trebleEnergy ≤ 100)
      ∧ (0 ≤ (analyzeAudio s dataArray sampleRate now).2.highEnergy
        ∧ (analyzeAudio s dataArray sampleRate now).2.highEnergy ≤ 100) := by
  have hsens : (0 : ℚ) ≤ s.sensitivity := by linarith
  have hvol : (analyzeAudio s dataArray sampleRate now).2.volume
      = calculateVolume dataArray s.sensitivity := by
    simp only [analyzeAudio, jsOr_zero]
  refine ⟨⟨?_, ?_⟩, ?_, ?_, ?_, ?_⟩
  · rw [hvol]
    unfold calculateVolume
    apply le_min (by norm_num)
    apply mul_nonneg (mul_nonneg ?_ (by norm_num)) (div_nonneg hsens (by norm_num))
    exact div_nonneg (div_nonneg (Nat.cast_nonneg _) (Nat.cast_nonneg _)) (by norm_num)
  · rw [hvol]
    exact min_le_left _ _
  all_goals exact
    ⟨energy_nonneg dataArray sampleRate _ _, energy_le_100 dataArray h255 sampleRate _ _⟩

theorem C8_percentages_in_range_witness :
    ((∀ x ∈ ([0, 128, 255] : List ℕ), x ≤ 255)
        ∧ 1 ≤ (⟨5, 0⟩ : ProcState).sensitivity
        ∧ (⟨5, 0⟩ : ProcState).sensitivity ≤ 10)
      ∧ ((0 ≤ (analyzeAudio ⟨5, 0⟩ [0, 128, 255] 44100 0).2.volume
            ∧ (analyzeAudio ⟨5, 0⟩ [0, 128, 255] 44100 0).2.volume ≤ 100)
        ∧ (0 ≤ (analyzeAudio ⟨5, 0⟩ [0, 128, 255] 44100 0).2.bassEnergy
            ∧ (analyzeAudio ⟨5, 0⟩ [0, 128, 255] 44100 0).2.bassEnergy ≤ 100)
        ∧ (0 ≤ (analyzeAudio ⟨5, 0⟩ [0, 128, 255] 44100 0).2.midEnergy
            ∧ (analyzeAudio ⟨5, 0⟩ [0, 128, 255] 44100 0).2.midEnergy ≤ 100)
        ∧ (0 ≤ (analyzeAudio ⟨5, 0⟩ [0, 128, 255] 44100 0).2.trebleEnergy
            ∧ (analyzeAudio ⟨5, 0⟩ [0, 128, 255] 44100 0).2.trebleEnergy ≤ 100)
        ∧ (0 ≤ (analyzeAudio ⟨5, 0⟩ [0, 128, 255] 44100 0).2.highEnergy
            ∧ (analyzeAudio ⟨5, 0⟩ [0, 128, 255] 44100 0).2.highEnergy ≤ 100)) :=
  ⟨⟨by decide, by norm_num, by norm_num⟩,
    C8_percentages_in_range ⟨5, 0⟩ [0, 128, 255] 44100 0 (by decide)
      (by norm_num) (by norm_num)⟩

/-- The resource-holding fields of the processor that `stop()`
(src/audio.js 365-399) touches.  `stream` records a stream's tracks when one
is held; `audioContextClosed = some b` means a context exists whose state is
closed iff `b`. -/
structure ResourceState where
  isActive : Bool
  retryTimeout : Option ℕ
  stream : Option ℕ
  microphonePresent : Bool
  audioContextClosed : Option Bool
  analyserPresent : Bool
  trackFailures : ℕ
  isMuted : Bool
  deriving DecidableEq

/-- The externally visible effects `stop()` performs on the platform
resources. -/
inductive StopAction where
  | clearRetryTimer : StopAction
  | stopTrack (i : ℕ) : StopAction
  | disconnectMicrophone : StopAction
  | closeContext : StopAction
  deriving DecidableEq

/-- `stop` (src/audio.js 365-399): clears the active flag, cancels a pending
retry timer, stops every track of the held stream, disconnects the source
node, closes the context when one exists and is not already closed, then
nulls every handle and resets `trackFailures` and `isMuted`.  Returns the
new state and the effects performed, in order. -/
def stop (s : ResourceState) : ResourceState × List StopAction :=
  (⟨false, none, none, false, none, false, 0, false⟩,
    (if s.retryTimeout.isSome then [StopAction.clearRetryTimer] else [])
      ++ (match s.stream with
          | some nTracks => (List.range nTracks).map StopAction.stopTrack
          | none => [])
      ++ (if s.microphonePresent then [StopAction.disconnectMicrophone] else [])
      ++ (match s.audioContextClosed with
          | some false => [StopAction.closeContext]
          | _ => []))

/-- The guard of `startAnalysis` (src/audio.js 213-226): a further analysis
frame is scheduled only while the processor is active and has an analyser. -/
def schedulesNextFrame (s : ResourceState) : Bool :=
  s.isActive && s.analyserPresent

/-- C9: `stop()` is idempotent and terminal — after one `stop()` all
resources are released (active flag down, no timer, no stream, no source
node, no context, no analyser, counters reset), a second `stop()` returns
the same released state and performs no effect at all (so no error can
arise), any pending recovery backoff timer is cancelled by the first call,
and no further analysis frame is scheduled after `stop()`. -/
theorem C9_stop_idempotent (s : ResourceState) :
    stop (stop s).1 = ((stop s).1, [])
      ∧ (stop s).1 = ⟨false, none, none, false, none, false, 0, false⟩
      ∧ schedulesNextFrame (stop s).1 = false
      ∧ (s.retryTimeout.isSome →
          StopAction.clearRetryTimer ∈ (stop s).2 ∧ (stop s).1.retryTimeout = none) := by
  refine ⟨rfl, rfl, rfl, ?_⟩
  intro hrt
  refine ⟨?_, rfl⟩
  simp [stop, hrt]

/-- The trace of one observer invocation in a frame: which callback was
called, with which snapshot, and the exception that was caught and logged
when the callback threw (src/audio.js 357-361). -/
structure ObsEvent (A E : Type) where
  observer : ℕ
  arg : A
  caught : Option E
  deriving DecidableEq

/-- One iteration of the `forEach` in `notifyCallbacks` (src/audio.js
356-362): the callback with identity `c` (its behaviour given by `env`) is
invoked on `data` inside `try`; an exception is caught and logged, never
rethrown.  The returned record is the trace of that invocation. -/
def invokeObserver {A E : Type} (env : ℕ → A → Except E Unit) (c : ℕ) (data : A) :
    ObsEvent A E :=
  match env c data with
  | Except.ok _ => ⟨c, data, none⟩
  | Except.error e => ⟨c, data, some e⟩

/-- `notifyCallbacks` (src/audio.js 355-363): a synchronous `forEach` over
the registration list, one try/catch-guarded invocation per entry, in list
order. -/
def notifyCallbacks {A E : Type} (env : ℕ → A → Except E Unit)
    (callbacks : List ℕ) (data : A) : List (ObsEvent A E) :=
  callbacks.map (fun c => invokeObserver env c data)

/-- `addCallback` (src/audio.js 344-346): push on the end of the list;
callbacks are identified by JS function identity, modelled as `ℕ`. -/
def addCallback (callbacks : List ℕ) (c : ℕ) : List ℕ := callbacks ++ [c]

/-- `removeCallback` (src/audio.js 348-353): `indexOf` finds the first
matching entry (`none` when absent) and `splice(index, 1)` removes exactly
that entry. -/
def removeCallback (callbacks : List ℕ) (c : ℕ) : List ℕ :=
  match callbacks.findIdx? (· == c) with
  | some i => callbacks.eraseIdx i
  | none => callbacks

theorem invokeObserver_observer {A E : Type} (env : ℕ → A → Except E Unit)
    (c : ℕ) (data : A) : (invokeObserver env c data).observer = c := by
  unfold invokeObserver
  cases env c data <;> rfl

theorem invokeObserver_arg {A E : Type} (env : ℕ → A → Except E Unit)
    (c : ℕ) (data : A) : (invokeObserver env c data).arg = data := by
  unfold invokeObserver
  cases env c data <;> rfl

theorem notifyCallbacks_observers {A E : Type} (env : ℕ → A → Except E Unit)
    (callbacks : List ℕ) (data : A) :
    (notifyCallbacks env callbacks data).map (fun ev => ev.observer) = callbacks := by
  unfold notifyCallbacks
  rw [List.map_map]
  have : ((fun ev : ObsEvent A E => ev.observer) ∘ fun c => invokeObserver env c data)
      = fun c => c := by
    funext c
    exact invokeObserver_observer env c data
  rw [this]
  simp

/-- C6: observer fan-out is order-preserving and isolated — each frame every
registered callback is invoked exactly once, in registration order, with the
same snapshot; when the callback `c` throws `e`, the exception is caught and
recorded for `c` alone and the callbacks after `c` are still invoked, so the
frame's trace is exactly the registration list. -/
theorem C6_observer_isolation {A E : Type} (env : ℕ → A → Except E Unit)
    (data : A) (pre post : List ℕ) (c : ℕ) (e : E)
    (hthrow : env c data = Except.error e) :
    (notifyCallbacks env (pre ++ c :: post) data).map (fun ev => ev.observer)
        = pre ++ c :: post
      ∧ (∀ ev ∈ notifyCallbacks env (pre ++ c :: post) data, ev.arg = data)
      ∧ notifyCallbacks env (pre ++ c :: post) data
          = notifyCallbacks env pre data
            ++ ⟨c, data, some e⟩ :: notifyCallbacks env post data := by
  refine ⟨notifyCallbacks_observers env (pre ++ c :: post) data, ?_, ?_⟩
  · intro ev hev
    obtain ⟨x, _, rfl⟩ := List.mem_map.mp hev
    exact invokeObserver_arg env x data
  · unfold notifyCallbacks
    rw [List.map_append, List.map_cons]
    have : invokeObserver env c data = (⟨c, data, some e⟩ : ObsEvent A E) := by
      unfold invokeObserver
      rw [hthrow]
    rw [this]

/-- The throwing environment of the C6 witness: callback 1 throws, every
other callback returns normally. -/
def throwingEnv : ℕ → ℕ → Except String Unit :=
  fun c _ => if c = 1 then Except.error "boom" else Except.ok ()

theorem C6_observer_isolation_witness :
    throwingEnv 1 7 = Except.error "boom"
      ∧ ((notifyCallbacks throwingEnv ([0] ++ 1 :: [2]) 7).map (fun ev => ev.observer)
            = [0] ++ 1 :: [2]
        ∧ (∀ ev ∈ notifyCallbacks throwingEnv ([0] ++ 1 :: [2]) 7, ev.arg = 7)
        ∧ notifyCallbacks throwingEnv ([0] ++ 1 :: [2]) 7
            = notifyCallbacks throwingEnv [0] 7
              ++ ⟨1, 7, some "boom"⟩ :: notifyCallbacks throwingEnv [2] 7) :=
  ⟨rfl, C6_observer_isolation throwingEnv 7 [0] [2] 1 "boom" rfl⟩

theorem findIdx?_cons_of_ne (l : List ℕ) (a c : ℕ) (h : (a == c) = false) :
    List.findIdx? (· == c) (a :: l) = (List.findIdx? (· == c) l).map (· + 1) := by
  rw [List.findIdx?_cons, h]
  simp

theorem removeCallback_cons_of_ne (a : ℕ) (l : List ℕ) (c : ℕ) (h : a ≠ c) :
    removeCallback (a :: l) c = a :: removeCallback l c := by
  unfold removeCallback
  rw [findIdx?_cons_of_ne l a c (beq_false_of_ne h)]
  cases List.findIdx? (· == c) l with
  | none => rfl
  | some i => rfl

theorem removeCallback_of_not_mem (l : List ℕ) (c : ℕ) (h : c ∉ l) :
    removeCallback l c = l := by
  induction l with
  | nil => rfl
  | cons a t ih =>
    have ha : a ≠ c := fun hac => h (hac ▸ List.mem_cons_self a t)
    rw [removeCallback_cons_of_ne a t c ha,
      ih (fun hm => h (List.mem_cons_of_mem a hm))]

theorem removeCallback_append_pair (l : List ℕ) (c : ℕ) (h : c ∉ l) :
    removeCallback (l ++ [c] ++ [c]) c = l ++ [c] := by
  induction l with
  | nil =>
    unfold removeCallback
    have hfi : List.findIdx? (· == c) ([] ++ [c] ++ [c]) = some 0 := by
      simp [List.findIdx?_cons]
    rw [hfi]
    rfl
  | cons a t ih =>
    have ha : a ≠ c := fun hac => h (hac ▸ List.mem_cons_self a t)
    have hl : (a :: t) ++ [c] ++ [c] = a :: (t ++ [c] ++ [c]) := by simp
    rw [hl, removeCallback_cons_of_ne a (t ++ [c] ++ [c]) c ha,
      ih (fun hm => h (List.mem_cons_of_mem a hm))]
    simp

/-- C10: `addCallback` appends without any duplicate check, so a callback
registered twice is invoked twice per frame; one `removeCallback` removes
only the first matching entry, leaving the second registration still invoked
on later frames; removing an unregistered callback changes nothing. -/
theorem C10_duplicate_registration {A E : Type} (env : ℕ → A → Except E Unit)
    (data : A) (callbacks : List ℕ) (c : ℕ) (h : c ∉ callbacks) :
    addCallback (addCallback callbacks c) c = callbacks ++ [c] ++ [c]
      ∧ ((notifyCallbacks env (addCallback (addCallback callbacks c) c) data).map
          (fun ev => ev.observer)).count c = 2
      ∧ removeCallback (addCallback (addCallback callbacks c) c) c
          = addCallback callbacks c
      ∧ ((notifyCallbacks env
            (removeCallback (addCallback (addCallback callbacks c) c) c) data).map
          (fun ev => ev.observer)).count c = 1
      ∧ removeCallback callbacks c = callbacks := by
  have hadd : addCallback (addCallback callbacks c) c = callbacks ++ [c] ++ [c] := rfl
  have hcount0 : callbacks.count c = 0 := List.count_eq_zero.mpr h
  refine ⟨hadd, ?_, ?_, ?_, removeCallback_of_not_mem callbacks c h⟩
  · rw [notifyCallbacks_observers, hadd, List.count_append, List.count_append, hcount0]
    simp
  · rw [hadd, removeCallback_append_pair callbacks c h]
    rfl
  · rw [hadd, removeCallback_append_pair callbacks c h, notifyCallbacks_observers,
      List.count_append, hcount0]
    simp

theorem C10_duplicate_registration_witness :
    (1 : ℕ) ∉ ([0] : List ℕ)
      ∧ (addCallback (addCallback [0] 1) 1 = [0] ++ [1] ++ [1]
        ∧ ((notifyCallbacks (fun _ _ => Except.ok ()) (addCallback (addCallback [0] 1) 1)
              (0 : ℕ)).map (fun ev : ObsEvent ℕ String => ev.observer)).count 1 = 2
        ∧ removeCallback (addCallback (addCallback [0] 1) 1) 1 = addCallback [0] 1
        ∧ ((notifyCallbacks (fun _ _ => Except.ok ())
              (removeCallback (addCallback (addCallback [0] 1) 1) 1) (0 : ℕ)).map
            (fun ev : ObsEvent ℕ String => ev.observer)).count 1 = 1
        ∧ removeCallback [0] 1 = [0]) :=
  ⟨by decide, C10_duplicate_registration (fun _ _ => Except.ok ()) 0 [0] 1 (by decide)⟩

/-- The list of bin indices `findDominantFrequency` actually scans: the
80Hz-4000Hz window truncated at the end of the data array (src/audio.js
290-293). -/
def dominantScanIdxs (dataArray : List ℕ) (sampleRate : ℚ) : List ℕ :=
  List.range' (dominantStartBin dataArray.length sampleRate)
    (min (dominantEndBin dataArray.length sampleRate) dataArray.length
      - dominantStartBin dataArray.length sampleRate)

theorem scanStep_le (dataArray : List ℕ) (acc : ℕ × ℕ) (i : ℕ) :
    acc.2 ≤ (scanStep dataArray acc i).2 := by
  unfold scanStep
  split
  · exact le_of_lt (by assumption)
  · exact le_refl _

theorem scanStep_self_le (dataArray : List ℕ) (acc : ℕ × ℕ) (i : ℕ) :
    dataArray.getD i 0 ≤ (scanStep dataArray acc i).2 := by
  unfold scanStep
  split
  · exact le_refl _
  · exact not_lt.mp (by assumption)

theorem foldl_scanStep_mono (dataArray : List ℕ) (l : List ℕ) :
    ∀ acc : ℕ × ℕ, acc.2 ≤ (l.foldl (scanStep dataArray) acc).2 := by
  induction l with
  | nil => intro acc; exact le_refl _
  | cons x t ih =>
    intro acc
    exact le_trans (scanStep_le dataArray acc x) (ih (scanStep dataArray acc x))

theorem foldl_scanStep_dominates (dataArray : List ℕ) (l : List ℕ) :
    ∀ acc : ℕ × ℕ, ∀ j ∈ l, dataArray.getD j 0 ≤ (l.foldl (scanStep dataArray) acc).2 := by
  induction l with
  | nil => intro acc j hj; cases hj
  | cons x t ih =>
    intro acc j hj
    rcases List.mem_cons.mp hj with rfl | hmem
    · exact le_trans (scanStep_self_le dataArray acc j)
        (foldl_scanStep_mono dataArray t _)
    · exact ih (scanStep dataArray acc x) j hmem

theorem foldl_scanStep_source (dataArray : List ℕ) (l : List ℕ) :
    ∀ acc : ℕ × ℕ, l.foldl (scanStep dataArray) acc = acc
      ∨ ((l.foldl (scanStep dataArray) acc).1 ∈ l
          ∧ dataArray.getD (l.foldl (scanStep dataArray) acc).1 0
            = (l.foldl (scanStep dataArray) acc).2) := by
  induction l with
  | nil => intro acc; exact Or.inl rfl
  | cons x t ih =>
    intro acc
    rw [List.foldl_cons]
    rcases ih (scanStep dataArray acc x) with heq | ⟨hmem, hval⟩
    · rw [heq]
      unfold scanStep
      split
      · exact Or.inr ⟨List.mem_cons_self x t, rfl⟩
      · exact Or.inl rfl
    · exact Or.inr ⟨List.mem_cons_of_mem x hmem, hval⟩

theorem maxScan_spec (dataArray : List ℕ) (lo hi : ℕ)
    (h : ∃ j ∈ List.range' lo (hi - lo), 0 < dataArray.getD j 0) :
    (maxScan dataArray lo hi).1 ∈ List.range' lo (hi - lo)
      ∧ dataArray.getD (maxScan dataArray lo hi).1 0 = (maxScan dataArray lo hi).2
      ∧ ∀ j ∈ List.range' lo (hi - lo),
          dataArray.getD j 0 ≤ (maxScan dataArray lo hi).2 := by
  obtain ⟨j0, hj0, hpos⟩ := h
  have hdom : ∀ j ∈ List.range' lo (hi - lo),
      dataArray.getD j 0 ≤ (maxScan dataArray lo hi).2 :=
    fun j hj => foldl_scanStep_dominates dataArray (List.range' lo (hi - lo)) (0, 0) j hj
  rcases foldl_scanStep_source dataArray (List.range' lo (hi - lo)) (0, 0) with heq | hsrc
  · exfalso
    have hle := hdom j0 hj0
    have : maxScan dataArray lo hi = (0, 0) := heq
    rw [this] at hle
    omega
  · exact ⟨hsrc.1, hsrc.2, hdom⟩

theorem dominantStartBin_512 : dominantStartBin 512 44100 = 1 := by
  unfold dominantStartBin
  have h : ⌊(80 * (512 : ℕ) : ℚ) / (44100 / 2)⌋ = 1 := by
    rw [Int.floor_eq_iff]
    norm_num
  rw [h]
  rfl

theorem dominantStartBin_10 : dominantStartBin 10 44100 = 0 := by
  unfold dominantStartBin
  have h : ⌊(80 * (10 : ℕ) : ℚ) / (44100 / 2)⌋ = 0 := by
    rw [Int.floor_eq_iff]
    norm_num
  rw [h]
  rfl

theorem dominantEndBin_10 : dominantEndBin 10 44100 = 1 := by
  unfold dominantEndBin
  have h : ⌊(4000 * (10 : ℕ) : ℚ) / (44100 / 2)⌋ = 1 := by
    rw [Int.floor_eq_iff]
    norm_num
  rw [h]
  rfl

theorem maxScan_replicate_zero (n lo hi : ℕ) :
    maxScan (List.replicate n 0) lo hi = (0, 0) := by
  unfold maxScan
  generalize List.range' lo (hi - lo) = l
  induction l with
  | nil => rfl
  | cons x t ih =>
    rw [List.foldl_cons]
    have hz : (List.replicate n 0).getD x 0 = 0 := by
      rcases lt_or_ge x n with hx | hx
      · rw [List.getD_eq_getElem _ _ (by simpa using hx)]
        simp
      · exact List.getD_eq_default _ _ (by simpa using hx)
    have hs : scanStep (List.replicate n 0) (0, 0) x = (0, 0) := by
      unfold scanStep
      rw [hz]
      simp
    rw [hs, ih]

/-- C4 counterexample: on a silent (all-zero) 512-bin spectrum at 44.1kHz,
`findDominantFrequency` returns 0 Hz, which is the frequency of bin 0 —
outside the scanned 80Hz-4000Hz window (the scan starts at bin 1, and no bin
of the window has frequency 0): the published value is not the frequency of
a peak-energy bin within the musically relevant sub-range, because
`maxIndex` keeps its initial value 0 when no scanned bin beats the initial
`maxValue = 0` (src/audio.js 286-287, 294). -/
theorem C4_dominant_frequency_counterexample :
    findDominantFrequency (List.replicate 512 0) 44100 = 0
      ∧ dominantStartBin 512 44100 = 1
      ∧ ∀ j ∈ dominantScanIdxs (List.replicate 512 0) 44100,
          (j : ℚ) * 44100 / (2 * 512) ≠ 0 := by
  refine ⟨?_, dominantStartBin_512, ?_⟩
  · simp only [findDominantFrequency]
    rw [maxScan_replicate_zero]
    norm_num
  · intro j hj
    have hj1 : 1 ≤ j := by
      unfold dominantScanIdxs at hj
      rw [List.length_replicate, dominantStartBin_512, List.mem_range'_1] at hj
      exact hj.1
    have hjq : (1 : ℚ) ≤ (j : ℚ) := by exact_mod_cast hj1
    positivity

/-- C4 (amended): `findDominantFrequency` scans only the bins of the
80Hz-4000Hz window for the maximal magnitude and converts the selected bin
to Hz as `bin * sampleRate / (2 * bufferLength)`; whenever at least one
scanned bin has nonzero magnitude the selected bin lies within the scanned
window and carries its peak magnitude (on an all-zero window the selected
bin is instead the initial `maxIndex = 0`, outside the window). -/
theorem C4_dominant_frequency (dataArray : List ℕ) (sampleRate : ℚ)
    (h : ∃ j ∈ dominantScanIdxs dataArray sampleRate, 0 < dataArray.getD j 0) :
    (maxScan dataArray (dominantStartBin dataArray.length sampleRate)
        (min (dominantEndBin dataArray.length sampleRate) dataArray.length)).1
        ∈ dominantScanIdxs dataArray sampleRate
      ∧ (∀ j ∈ dominantScanIdxs dataArray sampleRate,
          dataArray.getD j 0
            ≤ dataArray.getD (maxScan dataArray
                (dominantStartBin dataArray.length sampleRate)
                (min (dominantEndBin dataArray.length sampleRate)
                  dataArray.length)).1 0)
      ∧ findDominantFrequency dataArray sampleRate
          = ((maxScan dataArray (dominantStartBin dataArray.length sampleRate)
              (min (dominantEndBin dataArray.length sampleRate)
                dataArray.length)).1 : ℚ)
            * sampleRate / (2 * dataArray.length) := by
  have hspec := maxScan_spec dataArray (dominantStartBin dataArray.length sampleRate)
    (min (dominantEndBin dataArray.length sampleRate) dataArray.length) h
  refine ⟨hspec.1, ?_, rfl⟩
  intro j hj
  rw [hspec.2.1]
  exact hspec.2.2 j hj

theorem C4_dominant_frequency_witness :
    (∃ j ∈ dominantScanIdxs [7, 0, 0, 0, 0, 0, 0, 0, 0, 0] 44100,
        0 < ([7, 0, 0, 0, 0, 0, 0, 0, 0, 0] : List ℕ).getD j 0)
      ∧ ((maxScan [7, 0, 0, 0, 0, 0, 0, 0, 0, 0]
            (dominantStartBin ([7, 0, 0, 0, 0, 0, 0, 0, 0, 0] : List ℕ).length 44100)
            (min (dominantEndBin ([7, 0, 0, 0, 0, 0, 0, 0, 0, 0] : List ℕ).length 44100)
              ([7, 0, 0, 0, 0, 0, 0, 0, 0, 0] : List ℕ).length)).1
            ∈ dominantScanIdxs [7, 0, 0, 0, 0, 0, 0, 0, 0, 0] 44100
        ∧ (∀ j ∈ dominantScanIdxs [7, 0, 0, 0, 0, 0, 0, 0, 0, 0] 44100,
            ([7, 0, 0, 0, 0, 0, 0, 0, 0, 0] : List ℕ).getD j 0
              ≤ ([7, 0, 0, 0, 0, 0, 0, 0, 0, 0] : List ℕ).getD
                  (maxScan [7, 0, 0, 0, 0, 0, 0, 0, 0, 0]
                    (dominantStartBin
                      ([7, 0, 0, 0, 0, 0, 0, 0, 0, 0] : List ℕ).length 44100)
                    (min (dominantEndBin
                        ([7, 0, 0, 0, 0, 0, 0, 0, 0, 0] : List ℕ).length 44100)
                      ([7, 0, 0, 0, 0, 0, 0, 0, 0, 0] : List ℕ).length)).1 0)
        ∧ findDominantFrequency [7, 0, 0, 0, 0, 0, 0, 0, 0, 0] 44100
            = ((maxScan [7, 0, 0, 0, 0, 0, 0, 0, 0, 0]
                (dominantStartBin ([7, 0, 0, 0, 0, 0, 0, 0, 0, 0] : List ℕ).length 44100)
                (min (dominantEndBin
                    ([7, 0, 0, 0, 0, 0, 0, 0, 0, 0] : List ℕ).length 44100)
                  ([7, 0, 0, 0, 0, 0, 0, 0, 0, 0] : List ℕ).length)).1 : ℚ)
              * 44100 / (2 * ([7, 0, 0, 0, 0, 0, 0, 0, 0, 0] : List ℕ).length)) :=
  ⟨by
      refine ⟨0, ?_, by norm_num⟩
      unfold dominantScanIdxs
      simp only [List.length_cons, List.length_nil]
      rw [show (0 + 1 + 1 + 1 + 1 + 1 + 1 + 1 + 1 + 1 + 1 : ℕ) = 10 from rfl,
        dominantStartBin_10, dominantEndBin_10]
      decide,
    C4_dominant_frequency [7, 0, 0, 0, 0, 0, 0, 0, 0, 0] 44100
      (by
        refine ⟨0, ?_, by norm_num⟩
        unfold dominantScanIdxs
        simp only [List.length_cons, List.length_nil]
        rw [show (0 + 1 + 1 + 1 + 1 + 1 + 1 + 1 + 1 + 1 + 1 : ℕ) = 10 from rfl,
          dominantStartBin_10, dominantEndBin_10]
        decide)⟩

/-- The chromatic note-name table of `getMusicalNote` (src/audio.js 533). -/
def noteNames : List String :=
  ["C", "C#", "D", "D#", "E", "F"] ++ ["F#", "G", "G#", "A", "A#", "B"]

/-- `C0 = A4 * 2^(-4.75)` with `A4 = 440` (src/audio.js 534-535). -/
noncomputable def C0 : ℝ := 440 * (2 : ℝ) ^ (-4.75 : ℝ)

/-- The rounded semitone distance from C0 (src/audio.js 539):
`h = Math.round(12 * Math.log2(frequency / C0))`; JS `Math.round` is
round-half-up, as is Mathlib's `round`. -/
noncomputable def noteH (frequency : ℝ) : ℤ :=
  round (12 * Real.logb 2 (frequency / C0))

/-- The result of `getMusicalNote`: `note = none` models a JS `undefined`
from indexing `noteNames` outside its range. -/
structure MusicalNote where
  note : Option String
  octave : ℤ
  deriving DecidableEq

/-- The note/octave assembly of `getMusicalNote` for a positive frequency
(src/audio.js 539-547): JS `%` is the truncated remainder (`Int.tmod`),
`Math.floor(h / 12)` the floored quotient (`Int.fdiv`), and a negative
index into `noteNames` yields `undefined`. -/
def noteFromH (h : ℤ) : MusicalNote :=
  if Int.tmod h 12 < 0 then ⟨none, Int.fdiv h 12⟩
  else ⟨noteNames.get? (Int.tmod h 12).toNat, Int.fdiv h 12⟩

/-- `getMusicalNote` (src/audio.js 532-548). -/
noncomputable def getMusicalNote (frequency : ℝ) : MusicalNote :=
  if frequency ≤ 0 then ⟨some "", 0⟩ else noteFromH (noteH frequency)

/-- The claim's reading of the note lookup: `note = noteNames[h mod 12]`
with the mathematical (always nonnegative) modulus — the nearest
equal-tempered pitch name for every positive frequency. -/
def noteFromHSpec (h : ℤ) : MusicalNote :=
  ⟨noteNames.get? (h % 12).toNat, Int.fdiv h 12⟩

/-- The note mapping as the claim states it, silence case included. -/
noncomputable def getMusicalNoteSpec (frequency : ℝ) : MusicalNote :=
  if frequency ≤ 0 then ⟨some "", 0⟩ else noteFromHSpec (noteH frequency)

theorem div_C0_rpow (x : ℝ) :
    (440 * (2 : ℝ) ^ x) / C0 = (2 : ℝ) ^ (x + 4.75) := by
  unfold C0
  rw [mul_div_mul_left _ _ (by norm_num : (440 : ℝ) ≠ 0),
    ← Real.rpow_sub (by norm_num : (0 : ℝ) < 2)]
  norm_num

theorem noteH_rpow (x : ℝ) :
    noteH (440 * (2 : ℝ) ^ x) = round (12 * (x + 4.75)) := by
  unfold noteH
  rw [div_C0_rpow, Real.logb_rpow (by norm_num) (by norm_num)]

theorem noteH_440 : noteH (440 : ℝ) = 57 := by
  have h : (440 : ℝ) = 440 * (2 : ℝ) ^ (0 : ℝ) := by
    rw [Real.rpow_zero, mul_one]
  rw [h, noteH_rpow,
    show (12 * ((0 : ℝ) + 4.75)) = ((57 : ℤ) : ℝ) by norm_num, round_intCast]

theorem noteH_low : noteH (440 * (2 : ℝ) ^ (-(11 / 2) : ℝ)) = -9 := by
  rw [noteH_rpow,
    show (12 * (-(11 / 2 : ℝ) + 4.75)) = ((-9 : ℤ) : ℝ) by norm_num, round_intCast]

/-- C5 counterexample: at the frequency `440 * 2^(-11/2)` (about 19.4% of
C0, a positive frequency) the semitone distance is `h = -9`; the code's
lookup index is the JS remainder `-9 % 12 = -9`, so `noteNames[-9]` is
`undefined` — no pitch name at all — while the claim's nearest-pitch formula
`noteNames[h mod 12] = noteNames[3]` names the pitch `D#` (both agree the
octave is `floor(-9/12) = -1`). -/
theorem C5_note_mapping_counterexample :
    getMusicalNote (440 * (2 : ℝ) ^ (-(11 / 2) : ℝ)) = ⟨none, -1⟩
      ∧ getMusicalNoteSpec (440 * (2 : ℝ) ^ (-(11 / 2) : ℝ)) = ⟨some "D#", -1⟩ := by
  have hpos : (0 : ℝ) < 440 * (2 : ℝ) ^ (-(11 / 2) : ℝ) := by positivity
  constructor
  · unfold getMusicalNote
    rw [if_neg (not_le.mpr hpos), noteH_low]
    decide
  · unfold getMusicalNoteSpec
    rw [if_neg (not_le.mpr hpos), noteH_low]
    decide

/-- C5 (amended): for every frequency `f ≤ 0`, `getMusicalNote` returns the
empty silence note with octave 0; for every positive frequency whose rounded
semitone distance `h = round(12 * log2(f / C0))` is nonnegative (all
frequencies from one quarter-tone below C0 up), it returns exactly the
claim's nearest equal-tempered pitch `noteNames[h mod 12]` with octave
`floor(h / 12)`.  (For positive frequencies with `h < 0` the JS remainder
`h % 12` is negative and the note is `undefined` instead.) -/
theorem C5_note_mapping (frequency : ℝ)
    (h : frequency ≤ 0 ∨ 0 ≤ noteH frequency) :
    getMusicalNote frequency = getMusicalNoteSpec frequency
      ∧ (frequency ≤ 0 → getMusicalNote frequency = ⟨some "", 0⟩) := by
  constructor
  · by_cases hf : frequency ≤ 0
    · unfold getMusicalNote getMusicalNoteSpec
      rw [if_pos hf, if_pos hf]
    · have hh : 0 ≤ noteH frequency := h.resolve_left hf
      unfold getMusicalNote getMusicalNoteSpec
      rw [if_neg hf, if_neg hf]
      unfold noteFromH noteFromHSpec
      have ht : Int.tmod (noteH frequency) 12 = noteH frequency % 12 :=
        Int.tmod_eq_emod hh (by norm_num)
      rw [ht, if_neg (not_lt.mpr (Int.emod_nonneg _ (by norm_num)))]
  · intro hle
    unfold getMusicalNote
    rw [if_pos hle]

theorem C5_note_mapping_witness :
    ((440 : ℝ) ≤ 0 ∨ 0 ≤ noteH 440)
      ∧ (getMusicalNote 440 = getMusicalNoteSpec 440
        ∧ ((440 : ℝ) ≤ 0 → getMusicalNote 440 = ⟨some "", 0⟩)) :=
  ⟨Or.inr (by rw [noteH_440]; norm_num),
    C5_note_mapping 440 (Or.inr (by rw [noteH_440]; norm_num))⟩

end LiveMusicArtwork
